import Mathlib

/-
Verification of the Lamport distributed mutual-exclusion node
(Assignment_1/lamport_node.py) against its specification.

The node's methods are shallowly embedded as pure functions over an
explicit `NodeState` record.  Outbound RPC sends (threads created with
`threading.Thread(...)`) are modelled by returning the list of messages
the method initiates; per-peer success or failure of a send is modelled
by an oracle `responses : Nat -> Option Nat` giving, for a peer, either
the timestamp field of its RPC response (success) or `none` (the
`except` branch: the error is logged and swallowed).

The Python `request_queue` is a `heapq` min-heap of `(timestamp,
node_id)` tuples, compared lexicographically.  Its observable behaviour
is its multiset of entries together with the root `request_queue[0]`,
which the heap invariant keeps equal to the lexicographic minimum; the
embedding therefore models the queue as the list of its entries, with
`heappush` adding an entry and the root read modelled by `queueMin`,
the lexicographic minimum of the list.  `heapify` after a filtering
rebuild is content-preserving and needs no model of its own.
-/

namespace Lamport

/-- A queue entry: the Python tuple `(timestamp, node_id)`. -/
abbrev Req := Nat × Nat

/-- Python's lexicographic comparison `<=` on `(timestamp, node_id)` tuples. -/
def reqLe (a b : Req) : Prop :=
  a.1 < b.1 ∨ (a.1 = b.1 ∧ a.2 ≤ b.2)

instance (a b : Req) : Decidable (reqLe a b) := by
  unfold reqLe
  exact inferInstance

/-- Binary minimum of two queue entries under `reqLe`. -/
def minReq (a b : Req) : Req :=
  if reqLe a b then a else b

/-- The lexicographic minimum of the queue entries: the value the heap
invariant guarantees for the Python heap root `request_queue[0]`. -/
def queueMin : List Req → Option Req
  | [] => none
  | e :: es => some (es.foldl minReq e)

/-- Model of `heapq.heappush(queue, e)` at the level of queue contents:
the entry is added, nothing is removed. -/
def heappush (q : List Req) (e : Req) : List Req :=
  e :: q

/-- The mutable per-node state of `LamportNode.__init__`. -/
structure NodeState where
  node_id : Nat
  total_nodes : Nat
  lamport_clock : Nat
  request_queue : List Req
  replies_received : Finset Nat
  requesting_cs : Bool
  in_cs : Bool
  my_request_timestamp : Option Nat
  cs_entry_count : Nat
  cs_start_time : Option String
  cs_end_time : Option String
  messages_sent : Nat
  messages_received : Nat
deriving DecidableEq

/-- The state built by `LamportNode.__init__(node_id, total_nodes, base_port)`
(the port is transport addressing, external to the protocol state). -/
def initState (node_id total_nodes : Nat) : NodeState :=
  { node_id := node_id
    total_nodes := total_nodes
    lamport_clock := 0
    request_queue := []
    replies_received := ∅
    requesting_cs := false
    in_cs := false
    my_request_timestamp := none
    cs_entry_count := 0
    cs_start_time := none
    cs_end_time := none
    messages_sent := 0
    messages_received := 0 }

/-- `LamportNode.increment_clock`: add one and return the new value. -/
def increment_clock (s : NodeState) : Nat × NodeState :=
  let c := s.lamport_clock + 1
  (c, { s with lamport_clock := c })

/-- `LamportNode.update_clock(received_timestamp)`:
set the clock to `max(current, received) + 1` and return the new value. -/
def update_clock (received_timestamp : Nat) (s : NodeState) : Nat × NodeState :=
  let c := max s.lamport_clock received_timestamp + 1
  (c, { s with lamport_clock := c })

/-- A clock operation: a local tick or a merge with a received timestamp. -/
inductive ClockOp where
  | tick : ClockOp
  | merge : Nat → ClockOp
deriving DecidableEq

/-- Apply one clock operation to the state. -/
def applyClockOp (op : ClockOp) (s : NodeState) : NodeState :=
  match op with
  | .tick => (increment_clock s).2
  | .merge t => (update_clock t s).2

/-- Run a sequence of clock operations. -/
def runClockOps (ops : List ClockOp) (s : NodeState) : NodeState :=
  ops.foldl (fun s op => applyClockOp op s) s

/-- The duck-typed RPC response dictionary `{status, timestamp}`. -/
structure RpcResponse where
  status : String
  timestamp : Nat
deriving DecidableEq

/-- `LamportNode.request_critical_section(requesting_node_id, request_timestamp)`:
count the inbound message, merge the clock, `heappush` the request onto the
queue, tick for the reply timestamp, and initiate a REPLY back to the
requester (sent on a separate thread, returned here as the middle
component `(target, reply_ts)`). -/
def request_critical_section (requesting_node_id request_timestamp : Nat)
    (s : NodeState) : RpcResponse × (Nat × Nat) × NodeState :=
  let s1 := { s with messages_received := s.messages_received + 1 }
  let s2 := (update_clock request_timestamp s1).2
  let s3 := { s2 with
    request_queue := heappush s2.request_queue (request_timestamp, requesting_node_id) }
  let r := increment_clock s3
  (⟨"OK", r.1⟩, (requesting_node_id, r.1), r.2)

/-- `LamportNode.receive_reply(replying_node_id, reply_timestamp)`:
count the inbound message, merge the clock, and add the replier to the
`replies_received` set. -/
def receive_reply (replying_node_id reply_timestamp : Nat)
    (s : NodeState) : RpcResponse × NodeState :=
  let s1 := { s with messages_received := s.messages_received + 1 }
  let r := update_clock reply_timestamp s1
  let s3 := { r.2 with replies_received := insert replying_node_id r.2.replies_received }
  (⟨"OK", r.1⟩, s3)

/-- `LamportNode.release_critical_section(releasing_node_id, release_timestamp)`:
count the inbound message, merge the clock, and rebuild the queue keeping
only entries whose node id differs from the releaser (then `heapify`,
which is content-preserving). -/
def release_critical_section (releasing_node_id release_timestamp : Nat)
    (s : NodeState) : RpcResponse × NodeState :=
  let s1 := { s with messages_received := s.messages_received + 1 }
  let r := update_clock release_timestamp s1
  let s3 := { r.2 with
    request_queue := r.2.request_queue.filter (fun e => e.2 ≠ releasing_node_id) }
  (⟨"OK", r.1⟩, s3)

/-- The response dictionary of `ping`: `{status: alive, node_id}`. -/
structure PingResponse where
  status : String
  node_id : Nat
deriving DecidableEq

/-- `LamportNode.ping()`: return the liveness response; the state is
returned unchanged because the method body touches nothing. -/
def ping (s : NodeState) : PingResponse × NodeState :=
  (⟨"alive", s.node_id⟩, s)

/-- The statistics dictionary returned by `get_statistics`. -/
structure Statistics where
  node_id : Nat
  cs_entries : Nat
  messages_sent : Nat
  messages_received : Nat
  lamport_clock : Nat
  cs_start_time : Option String
  cs_end_time : Option String
deriving DecidableEq

/-- `LamportNode.get_statistics()`: build the statistics dictionary from
the current field values; the state is returned unchanged. -/
def get_statistics (s : NodeState) : Statistics × NodeState :=
  (⟨s.node_id, s.cs_entry_count, s.messages_sent, s.messages_received,
    s.lamport_clock, s.cs_start_time, s.cs_end_time⟩, s)

/-- The peer ids of `for peer_id in range(1, total_nodes + 1): if peer_id != node_id`. -/
def peerIds (s : NodeState) : List Nat :=
  (List.range' 1 s.total_nodes).filter (fun p => p ≠ s.node_id)

/-- `LamportNode.request_cs()`: set `requesting_cs`, clear the reply set,
tick for the request timestamp, record it, rebuild the queue without any
prior own entry and `heappush` the own request, then initiate a REQUEST
carrying that timestamp to every peer (one thread per peer).  Returns the
new state, the request timestamp, and the initiated `(peer, timestamp)`
REQUEST messages. -/
def request_cs (s : NodeState) : NodeState × Nat × List (Nat × Nat) :=
  let s1 := { s with requesting_cs := true }
  let s2 := { s1 with replies_received := ∅ }
  let r := increment_clock s2
  let s4 := { r.2 with my_request_timestamp := some r.1 }
  let s5 := { s4 with
    request_queue :=
      heappush (s4.request_queue.filter (fun e => e.2 ≠ s4.node_id)) (r.1, s4.node_id) }
  (s5, r.1, (peerIds s5).map (fun p => (p, r.1)))

/-- `LamportNode._send_request_to_peer` runs once per initiated REQUEST in
its own thread under `try/except`: the messages that actually reach their
peer are those whose peer's channel succeeds; a failed peer is logged and
skipped, independently of the others. -/
def performRequestSends (msgs : List (Nat × Nat))
    (responses : Nat → Option Nat) : List (Nat × Nat) :=
  msgs.filter (fun m => (responses m.1).isSome)

/-- The entry condition evaluated each iteration of
`LamportNode.wait_for_cs_entry`: all `total_nodes - 1` replies are in, and
the queue is non-empty with the heap root's node id equal to the own id. -/
def csEntryCheck (s : NodeState) : Bool :=
  (s.replies_received.card == s.total_nodes - 1) &&
  (match queueMin s.request_queue with
   | some e => e.2 == s.node_id
   | none => false)

/-- `LamportNode.wait_for_cs_entry`, polling a sequence of observed states
(the shared state mutates under the node's concurrent inbound handlers
between 100 ms sleeps): the index of the first polled state satisfying
`csEntryCheck`, searching the first `fuel` polls. -/
def wait_for_cs_entry (obs : Nat → NodeState) (fuel : Nat) : Option Nat :=
  (List.range fuel).find? (fun k => csEntryCheck (obs k))

/-- One CS operation record collected by `execute_critical_section`. -/
structure CSOperation where
  num : Nat
  value : Nat
  result : Nat
  ts : Nat
deriving DecidableEq

/-- One iteration of the `for i in range(3)` loop of
`execute_critical_section`: tick, compute `node_id * 100 + i * 10`,
accumulate it into the running result, and record the operation. -/
def csOpStep (node_id : Nat) (acc : List CSOperation × Nat × NodeState)
    (i : Nat) : List CSOperation × Nat × NodeState :=
  let r := increment_clock acc.2.2
  let value := node_id * 100 + i * 10
  let result1 := acc.2.1 + value
  (acc.1 ++ [⟨i + 1, value, result1, r.1⟩], result1, r.2)

/-- `LamportNode.execute_critical_section()`: tick for the work-start
timestamp, run the three operations, tick for the work-end timestamp.
Returns the new state, the recorded operations, and the final result.
(The evidence file write is external I/O; see `write_cs_evidence`.) -/
def execute_critical_section (s : NodeState) : NodeState × List CSOperation × Nat :=
  let r0 := increment_clock s
  let acc := (List.range 3).foldl (csOpStep s.node_id) ([], 0, r0.2)
  let r1 := increment_clock acc.2.2
  (r1.2, acc.1, acc.2.1)

/-- The evidence record `write_cs_evidence` persists for one CS entry
(the file write itself is external I/O; the record is its content). -/
structure CSEvidence where
  node_id : Nat
  lamport_clock : Nat
  request_ts : Option Nat
  operations : List String
  final_result : Nat
deriving DecidableEq

/-- `LamportNode.write_cs_evidence(result, operations)` as the pure record
it persists. -/
def write_cs_evidence (s : NodeState) (result : Nat) (operations : List String) :
    CSEvidence :=
  ⟨s.node_id, s.lamport_clock, s.my_request_timestamp, operations, result⟩

/-- `LamportNode.enter_cs()` with the wall-clock entry time supplied as a
parameter: count the entry, record the entry time, tick for the entry
timestamp, set `in_cs`, and run `execute_critical_section`. -/
def enter_cs (wallTime : String) (s : NodeState) : NodeState × List CSOperation × Nat :=
  let s1 := { s with
    cs_entry_count := s.cs_entry_count + 1
    cs_start_time := some wallTime }
  let r := increment_clock s1
  let s3 := { r.2 with in_cs := true }
  execute_critical_section s3

/-- The wait-then-enter portion of `execute_cs_cycle`: when the poll loop
finds a state passing `csEntryCheck`, `enter_cs` runs from that state. -/
def execute_cs_entry (obs : Nat → NodeState) (fuel : Nat) (wallTime : String) :
    Option (NodeState × List CSOperation × Nat) :=
  (wait_for_cs_entry obs fuel).map (fun k => enter_cs wallTime (obs k))

/-- The RELEASE broadcast loop of `exit_cs`: one `_send_release_to_peer`
per peer, each ticking the (lock-protected) clock for its own fresh
`release_ts`, sending `(peer, release_ts)`, and on success counting the
send and merging the response timestamp; on failure the error is
swallowed.  Modelled in peer order; the properties proved about it hold
under any interleaving because every path through a send only increases
the clock. -/
def releaseSendLoop (responses : Nat → Option Nat) :
    List Nat → NodeState → NodeState × List (Nat × Nat)
  | [], s => (s, [])
  | p :: ps, s =>
      let r := increment_clock s
      match responses p with
      | some rts =>
          let s2 := { r.2 with messages_sent := r.2.messages_sent + 1 }
          let s3 := (update_clock rts s2).2
          let rest := releaseSendLoop responses ps s3
          (rest.1, (p, r.1) :: rest.2)
      | none =>
          let rest := releaseSendLoop responses ps r.2
          (rest.1, (p, r.1) :: rest.2)

/-- `LamportNode.exit_cs()` with the wall-clock exit time supplied as a
parameter: record the exit time, tick for the exit timestamp, clear the
CS flags, rebuild the queue without the own entry, and initiate the
RELEASE broadcast.  Returns the final state, the exit timestamp, and the
initiated `(peer, release_ts)` RELEASE messages. -/
def exit_cs (wallTime : String) (responses : Nat → Option Nat)
    (s : NodeState) : NodeState × Nat × List (Nat × Nat) :=
  let s1 := { s with cs_end_time := some wallTime }
  let r := increment_clock s1
  let s3 := { r.2 with in_cs := false, requesting_cs := false }
  let s4 := { s3 with
    request_queue := s3.request_queue.filter (fun e => e.2 ≠ s3.node_id) }
  let rest := releaseSendLoop responses (peerIds s4) s4
  (rest.1, r.1, rest.2)

/-- Concrete state for the entry-condition witness: node 1 of 2, reply
from node 2 recorded, own request at the head of the queue. -/
def exEntry : NodeState :=
  { initState 1 2 with
    replies_received := {2}
    request_queue := [(1, 1)]
    my_request_timestamp := some 1 }

/-- Concrete state for the upsert counterexample: node 1 of 3 whose queue
already holds an entry for node 2. -/
def exQueue2 : NodeState :=
  { initState 1 3 with request_queue := [(1, 2)] }

/-- Concrete state for the stale-reply counterexample: node 1 of 3 with an
outstanding request stamped 3. -/
def exStale : NodeState :=
  { initState 1 3 with lamport_clock := 3, my_request_timestamp := some 3 }

/-- Concrete state for the release witness: node 3 of 3 whose queue holds
an entry for node 2 and one for node 1. -/
def exRel : NodeState :=
  { initState 3 3 with request_queue := [(1, 2), (3, 1)] }

end Lamport

namespace Lamport

theorem reqLe_refl (a : Req) : reqLe a a := Or.inr ⟨rfl, le_rfl⟩

theorem reqLe_total (a b : Req) : reqLe a b ∨ reqLe b a := by
  rcases Nat.lt_trichotomy a.1 b.1 with h | h | h
  · exact Or.inl (Or.inl h)
  · rcases Nat.le_total a.2 b.2 with h2 | h2
    · exact Or.inl (Or.inr ⟨h, h2⟩)
    · exact Or.inr (Or.inr ⟨h.symm, h2⟩)
  · exact Or.inr (Or.inl h)

theorem reqLe_trans {a b c : Req} (h1 : reqLe a b) (h2 : reqLe b c) : reqLe a c := by
  rcases h1 with h1 | ⟨e1, l1⟩ <;> rcases h2 with h2 | ⟨e2, l2⟩
  · exact Or.inl (h1.trans h2)
  · exact Or.inl (e2 ▸ h1)
  · exact Or.inl (e1 ▸ h2)
  · exact Or.inr ⟨e1.trans e2, l1.trans l2⟩

theorem minReq_le_left (a b : Req) : reqLe (minReq a b) a := by
  unfold minReq
  by_cases h : reqLe a b
  · rw [if_pos h]; exact reqLe_refl a
  · rw [if_neg h]
    rcases reqLe_total a b with h1 | h1
    · exact absurd h1 h
    · exact h1

theorem minReq_le_right (a b : Req) : reqLe (minReq a b) b := by
  unfold minReq
  by_cases h : reqLe a b
  · rw [if_pos h]; exact h
  · rw [if_neg h]; exact reqLe_refl b

theorem minReq_eq_or (a b : Req) : minReq a b = a ∨ minReq a b = b := by
  unfold minReq
  by_cases h : reqLe a b
  · rw [if_pos h]; exact Or.inl rfl
  · rw [if_neg h]; exact Or.inr rfl

theorem foldl_minReq_mem (l : List Req) (a : Req) :
    l.foldl minReq a = a ∨ l.foldl minReq a ∈ l := by
  induction l generalizing a with
  | nil => exact Or.inl rfl
  | cons b l ih =>
      simp only [List.foldl_cons]
      rcases ih (minReq a b) with h | h
      · rcases minReq_eq_or a b with h2 | h2
        · exact Or.inl (h.trans h2)
        · exact Or.inr (by rw [h, h2]; exact List.mem_cons_self b l)
      · exact Or.inr (List.mem_cons_of_mem b h)

theorem foldl_minReq_le_init (l : List Req) (a : Req) :
    reqLe (l.foldl minReq a) a := by
  induction l generalizing a with
  | nil => exact reqLe_refl a
  | cons b l ih =>
      simp only [List.foldl_cons]
      exact reqLe_trans (ih (minReq a b)) (minReq_le_left a b)

theorem foldl_minReq_le_mem (l : List Req) (a x : Req) (hx : x ∈ l) :
    reqLe (l.foldl minReq a) x := by
  induction l generalizing a with
  | nil => cases hx
  | cons b l ih =>
      simp only [List.foldl_cons]
      rcases List.mem_cons.mp hx with h | h
      · subst h
        exact reqLe_trans (foldl_minReq_le_init l (minReq a x)) (minReq_le_right a x)
      · exact ih (minReq a b) h

theorem queueMin_mem {q : List Req} {e : Req} (h : queueMin q = some e) : e ∈ q := by
  cases q with
  | nil => cases h
  | cons b l =>
      simp only [queueMin, Option.some.injEq] at h
      subst h
      rcases foldl_minReq_mem l b with h | h
      · rw [h]; exact List.mem_cons_self b l
      · exact List.mem_cons_of_mem b h

theorem queueMin_least {q : List Req} {e : Req} (h : queueMin q = some e) :
    ∀ x ∈ q, reqLe e x := by
  cases q with
  | nil => cases h
  | cons b l =>
      simp only [queueMin, Option.some.injEq] at h
      subst h
      intro x hx
      rcases List.mem_cons.mp hx with h | h
      · subst h; exact foldl_minReq_le_init l x
      · exact foldl_minReq_le_mem l b x h

theorem peerIds_mem (s : NodeState) (p : Nat) :
    p ∈ peerIds s ↔ (1 ≤ p ∧ p ≤ s.total_nodes ∧ p ≠ s.node_id) := by
  simp only [peerIds, List.mem_filter, List.mem_range'_1, decide_eq_true_eq]
  omega

theorem peerIds_length (s : NodeState) (h1 : 1 ≤ s.node_id)
    (h2 : s.node_id ≤ s.total_nodes) :
    (peerIds s).length = s.total_nodes - 1 := by
  have hnd : (List.range' 1 s.total_nodes).Nodup := List.nodup_range' _ _
  have hmem : s.node_id ∈ List.range' 1 s.total_nodes := by
    rw [List.mem_range'_1]; omega
  have hpred : (fun x => x != s.node_id) = (fun p : Nat => decide (p ≠ s.node_id)) := by
    funext x
    by_cases h : x = s.node_id <;> simp [h]
  have he : (List.range' 1 s.total_nodes).erase s.node_id =
      (List.range' 1 s.total_nodes).filter (fun p => p ≠ s.node_id) := by
    rw [hnd.erase_eq_filter s.node_id, hpred]
  have hlen : (peerIds s).length =
      ((List.range' 1 s.total_nodes).erase s.node_id).length := by
    rw [he]; rfl
  rw [hlen, List.length_erase_of_mem hmem, List.length_range']

end Lamport

namespace Lamport

theorem applyClockOp_clock_lt (op : ClockOp) (s : NodeState) :
    s.lamport_clock < (applyClockOp op s).lamport_clock := by
  cases op with
  | tick => exact Nat.lt_succ_self _
  | merge t => exact Nat.lt_succ_of_le (Nat.le_max_left _ _)

theorem runClockOps_clock_le (ops : List ClockOp) (s : NodeState) :
    s.lamport_clock ≤ (runClockOps ops s).lamport_clock := by
  induction ops generalizing s with
  | nil => exact le_rfl
  | cons op rest ih =>
      exact le_trans (le_of_lt (applyClockOp_clock_lt op s)) (ih (applyClockOp op s))

theorem runClockOps_clock_lt (ops : List ClockOp) (s : NodeState) (h : ops ≠ []) :
    s.lamport_clock < (runClockOps ops s).lamport_clock := by
  cases ops with
  | nil => exact absurd rfl h
  | cons op rest =>
      exact lt_of_lt_of_le (applyClockOp_clock_lt op s)
        (runClockOps_clock_le rest (applyClockOp op s))

theorem releaseSendLoop_queue (responses : Nat → Option Nat) (ps : List Nat) :
    ∀ s : NodeState,
      (releaseSendLoop responses ps s).1.request_queue = s.request_queue := by
  induction ps with
  | nil => intro s; rfl
  | cons p ps ih =>
      intro s
      cases hr : responses p with
      | some rts =>
          simp only [releaseSendLoop, increment_clock, update_clock, hr]
          exact ih _
      | none =>
          simp only [releaseSendLoop, increment_clock, update_clock, hr]
          exact ih _

theorem releaseSendLoop_fst (responses : Nat → Option Nat) (ps : List Nat) :
    ∀ s : NodeState,
      (releaseSendLoop responses ps s).2.map Prod.fst = ps := by
  induction ps with
  | nil => intro s; rfl
  | cons p ps ih =>
      intro s
      cases hr : responses p with
      | some rts =>
          simp only [releaseSendLoop, increment_clock, update_clock, hr, List.map_cons]
          rw [ih _]
      | none =>
          simp only [releaseSendLoop, increment_clock, update_clock, hr, List.map_cons]
          rw [ih _]

theorem releaseSendLoop_msg_gt (responses : Nat → Option Nat) (ps : List Nat) :
    ∀ (s : NodeState), ∀ m ∈ (releaseSendLoop responses ps s).2,
      s.lamport_clock < m.2 := by
  induction ps with
  | nil =>
      intro s m hm
      simp only [releaseSendLoop, List.not_mem_nil] at hm
  | cons p ps ih =>
      intro s m hm
      cases hr : responses p with
      | some rts =>
          simp only [releaseSendLoop, increment_clock, update_clock, hr] at hm
          rcases List.mem_cons.mp hm with h | h
          · subst h; exact Nat.lt_succ_self _
          · have h2 := ih _ m h
            simp only at h2
            omega
      | none =>
          simp only [releaseSendLoop, increment_clock, update_clock, hr] at hm
          rcases List.mem_cons.mp hm with h | h
          · subst h; exact Nat.lt_succ_self _
          · have h2 := ih _ m h
            simp only at h2
            omega

theorem releaseSendLoop_pairwise (responses : Nat → Option Nat) (ps : List Nat) :
    ∀ (s : NodeState),
      ((releaseSendLoop responses ps s).2.map Prod.snd).Pairwise (· < ·) := by
  induction ps with
  | nil => intro s; simp [releaseSendLoop]
  | cons p ps ih =>
      intro s
      cases hr : responses p with
      | some rts =>
          simp only [releaseSendLoop, increment_clock, update_clock, hr, List.map_cons]
          refine List.pairwise_cons.mpr ⟨?_, ih _⟩
          intro b hb
          rcases List.mem_map.mp hb with ⟨m, hm, hb2⟩
          have h2 := releaseSendLoop_msg_gt responses ps _ m hm
          simp only at h2
          omega
      | none =>
          simp only [releaseSendLoop, increment_clock, update_clock, hr, List.map_cons]
          refine List.pairwise_cons.mpr ⟨?_, ih _⟩
          intro b hb
          rcases List.mem_map.mp hb with ⟨m, hm, hb2⟩
          have h2 := releaseSendLoop_msg_gt responses ps _ m hm
          simp only at h2
          omega

end Lamport

namespace Lamport

/-- C2: for every current clock value and received timestamp,
`update_clock` sets the clock to `max(current, received) + 1` and returns
that value, which is at least the received timestamp plus one and
strictly greater than the previous value; `increment_clock` sets the
clock to `current + 1` and returns it; and across any non-empty sequence
of tick and merge operations the clock strictly increases. -/
theorem clock_tick_merge_monotone (s : NodeState) (t : Nat) (ops : List ClockOp)
    (h : ops ≠ []) :
    (update_clock t s).1 = max s.lamport_clock t + 1 ∧
    (update_clock t s).2.lamport_clock = max s.lamport_clock t + 1 ∧
    t + 1 ≤ (update_clock t s).1 ∧
    s.lamport_clock < (update_clock t s).1 ∧
    (increment_clock s).1 = s.lamport_clock + 1 ∧
    (increment_clock s).2.lamport_clock = s.lamport_clock + 1 ∧
    s.lamport_clock < (increment_clock s).1 ∧
    s.lamport_clock < (runClockOps ops s).lamport_clock := by
  refine ⟨rfl, rfl, ?_, ?_, rfl, rfl, Nat.lt_succ_self _,
    runClockOps_clock_lt ops s h⟩
  · have := Nat.le_max_right s.lamport_clock t
    simp only [update_clock]
    omega
  · have := Nat.le_max_left s.lamport_clock t
    simp only [update_clock]
    omega

/-- Witness for C2 at a concrete state and a singleton tick sequence. -/
theorem clock_tick_merge_monotone_witness :
    (initState 1 3).lamport_clock <
      (runClockOps [ClockOp.tick] (initState 1 3)).lamport_clock :=
  (clock_tick_merge_monotone (initState 1 3) 4 [ClockOp.tick]
    (List.cons_ne_nil _ _)).2.2.2.2.2.2.2

/-- C3 counterexample: the inbound REQUEST handler is not an upsert.
Starting from a queue already holding the entry `(1, 2)` for node 2,
processing REQUEST from node 2 with timestamp 5 leaves two queue entries
for node 2, refuting "at most one entry per node id after onRequest". -/
theorem onRequest_upsert_counterexample :
    ¬ (((request_critical_section 2 5 exQueue2).2.2.request_queue.countP
        (fun e => e.2 == 2)) ≤ 1) := by decide

/-- C3 amended: processing an inbound REQUEST from node X with timestamp t
pushes the entry `(t, X)` onto the queue without removing any existing
entry (in particular any prior entry for X remains), counts the inbound
message, merges the clock, and ticks for the reply timestamp that is sent
back to X. -/
theorem onRequest_push_preserves_entries (f t : Nat) (s : NodeState) :
    (request_critical_section f t s).2.2.request_queue = (t, f) :: s.request_queue ∧
    (request_critical_section f t s).2.2.messages_received = s.messages_received + 1 ∧
    (request_critical_section f t s).2.2.lamport_clock =
      max s.lamport_clock t + 1 + 1 ∧
    (request_critical_section f t s).1 = ⟨"OK", max s.lamport_clock t + 1 + 1⟩ ∧
    (request_critical_section f t s).2.1 = (f, max s.lamport_clock t + 1 + 1) :=
  ⟨rfl, rfl, rfl, rfl, rfl⟩

/-- C4 counterexample: there is no stale-reply guard.  At a state whose
outstanding request timestamp is 3, a reply carrying timestamp 10 (a
timestamp differing from the outstanding request's) still mutates the
reply tracker: the replier is recorded toward quorum. -/
theorem receive_reply_stale_guard_counterexample :
    exStale.my_request_timestamp = some 3 ∧ (10 : Nat) ≠ 3 ∧
    (receive_reply 2 10 exStale).2.replies_received ≠ exStale.replies_received := by
  refine ⟨rfl, by decide, ?_⟩
  decide

/-- C4 amended: the inbound reply handler records the replier
unconditionally: for every state and every reply, it counts the inbound
message, merges the clock, and inserts the replier into the reply
tracker, performing no comparison with the node's outstanding request
timestamp. -/
theorem receive_reply_unconditional_record (f t : Nat) (s : NodeState) :
    (receive_reply f t s).2.replies_received = insert f s.replies_received ∧
    (receive_reply f t s).2.lamport_clock = max s.lamport_clock t + 1 ∧
    (receive_reply f t s).2.messages_received = s.messages_received + 1 ∧
    (receive_reply f t s).2.my_request_timestamp = s.my_request_timestamp :=
  ⟨rfl, rfl, rfl, rfl⟩

/-- C5: after peer Y processes RELEASE from node X, Y's queue is exactly
its old queue with every entry of X removed: it contains no entry whose
requester is X, and every entry of any other node that was present
before is still present. -/
theorem release_clears_releaser_entries (X ts : Nat) (s : NodeState) :
    (release_critical_section X ts s).2.request_queue =
      s.request_queue.filter (fun e => e.2 ≠ X) ∧
    (∀ e ∈ (release_critical_section X ts s).2.request_queue, e.2 ≠ X) ∧
    (∀ e ∈ s.request_queue, e.2 ≠ X →
      e ∈ (release_critical_section X ts s).2.request_queue) := by
  refine ⟨rfl, ?_, ?_⟩
  · intro e he
    have h2 := (List.mem_filter.mp he).2
    simpa using h2
  · intro e he hne
    exact List.mem_filter.mpr ⟨he, by simpa using hne⟩

/-- Witness for C5 at a concrete state: node 3's queue holds `(1, 2)` and
`(3, 1)`; after RELEASE from node 2, the entry for node 2 is gone and the
entry for node 1 remains. -/
theorem release_clears_releaser_entries_witness :
    ((1, 2) ∉ (release_critical_section 2 7 exRel).2.request_queue) ∧
    (3, 1) ∈ (release_critical_section 2 7 exRel).2.request_queue :=
  ⟨fun hmem => (release_clears_releaser_entries 2 7 exRel).2.1 (1, 2) hmem rfl,
   (release_clears_releaser_entries 2 7 exRel).2.2 (3, 1) (by decide) (by decide)⟩

/-- C8: `get_statistics` is a read-only snapshot: it returns the state
unchanged, and a second call with no intervening protocol activity
returns the identical statistics value. -/
theorem get_statistics_readonly (s : NodeState) :
    (get_statistics s).2 = s ∧
    (get_statistics ((get_statistics s).2)).1 = (get_statistics s).1 :=
  ⟨rfl, rfl⟩

/-- C9: `ping` returns status "alive" with the node's id and mutates no
state: the returned state is the input state, and in particular the
clock, queue, reply set, CS flags, and every statistics counter
(including `messages_received`) are unchanged. -/
theorem ping_no_mutation (s : NodeState) :
    (ping s).1 = ⟨"alive", s.node_id⟩ ∧
    (ping s).2 = s ∧
    (ping s).2.lamport_clock = s.lamport_clock ∧
    (ping s).2.request_queue = s.request_queue ∧
    (ping s).2.replies_received = s.replies_received ∧
    (ping s).2.requesting_cs = s.requesting_cs ∧
    (ping s).2.in_cs = s.in_cs ∧
    (ping s).2.cs_entry_count = s.cs_entry_count ∧
    (ping s).2.messages_sent = s.messages_sent ∧
    (ping s).2.messages_received = s.messages_received :=
  ⟨rfl, rfl, rfl, rfl, rfl, rfl, rfl, rfl, rfl, rfl⟩

end Lamport

namespace Lamport

theorem releaseSendLoop_cs_end_time (responses : Nat → Option Nat) (ps : List Nat) :
    ∀ s : NodeState,
      (releaseSendLoop responses ps s).1.cs_end_time = s.cs_end_time := by
  induction ps with
  | nil => intro s; rfl
  | cons p ps ih =>
      intro s
      cases hr : responses p with
      | some rts =>
          simp only [releaseSendLoop, increment_clock, update_clock, hr]
          exact ih _
      | none =>
          simp only [releaseSendLoop, increment_clock, update_clock, hr]
          exact ih _

/-- C6: `request_cs` resets the reply tracker to the empty set, performs
one tick whose value becomes the request timestamp (recorded in
`my_request_timestamp`), inserts the own request into the queue replacing
any prior own entry, and initiates a REQUEST carrying that same timestamp
to each of the `total_nodes - 1` other participants; delivery to a peer
depends only on that peer's own channel, so a failure at one peer does
not prevent the sends to the others. -/
theorem request_cs_spec (s : NodeState) (h1 : 1 ≤ s.node_id)
    (h2 : s.node_id ≤ s.total_nodes) :
    (request_cs s).1.replies_received = ∅ ∧
    (request_cs s).2.1 = s.lamport_clock + 1 ∧
    (request_cs s).1.lamport_clock = s.lamport_clock + 1 ∧
    (request_cs s).1.my_request_timestamp = some (s.lamport_clock + 1) ∧
    (request_cs s).1.request_queue =
      (s.lamport_clock + 1, s.node_id) ::
        s.request_queue.filter (fun e => e.2 ≠ s.node_id) ∧
    (request_cs s).2.2 =
      (peerIds s).map (fun p => (p, s.lamport_clock + 1)) ∧
    (∀ p, p ∈ peerIds s ↔ (1 ≤ p ∧ p ≤ s.total_nodes ∧ p ≠ s.node_id)) ∧
    (request_cs s).2.2.length = s.total_nodes - 1 ∧
    (∀ (responses : Nat → Option Nat) (q ts2 : Nat), (responses q).isSome →
      (q, ts2) ∈ (request_cs s).2.2 →
      (q, ts2) ∈ performRequestSends (request_cs s).2.2 responses) := by
  refine ⟨rfl, rfl, rfl, rfl, rfl, rfl, peerIds_mem s, ?_, ?_⟩
  · show ((peerIds s).map (fun p => (p, s.lamport_clock + 1))).length = _
    rw [List.length_map, peerIds_length s h1 h2]
  · intro responses q ts2 hq hmem
    exact List.mem_filter.mpr ⟨hmem, hq⟩

/-- Witness for C6 at the freshly initialised node 1 of 3: the REQUEST
broadcast goes to two peers. -/
theorem request_cs_spec_witness :
    (request_cs (initState 1 3)).2.2.length = 3 - 1 :=
  (request_cs_spec (initState 1 3) (by decide) (by decide)).2.2.2.2.2.2.2.1

/-- C7 counterexample: the RELEASE messages of one exit do not all carry
the single release timestamp produced in `exit_cs`.  For node 1 of 3 at
clock 0 (all sends failing, which does not affect the carried
timestamps), the exit tick produces 1 while the two RELEASE messages
carry 2 and 3: each `_send_release_to_peer` ticks again for its own
timestamp. -/
theorem exit_cs_same_ts_counterexample :
    ¬ (∀ m ∈ (exit_cs "x" (fun _ => none) (initState 1 3)).2.2,
        m.2 = (exit_cs "x" (fun _ => none) (initState 1 3)).2.1) := by decide

/-- C7 amended: `exit_cs` records the exit time, performs one tick
producing the exit timestamp `lamport_clock + 1`, removes the node's own
entry from its local queue, and then initiates one RELEASE per other
participant; each of those `total_nodes - 1` RELEASE messages carries a
fresh per-send timestamp obtained by a further tick inside the send, so
the carried timestamps are strictly increasing in send order (in
particular pairwise distinct) and all strictly greater than the exit
timestamp. -/
theorem exit_cs_fresh_release_ts (w : String) (responses : Nat → Option Nat)
    (s : NodeState) (h1 : 1 ≤ s.node_id) (h2 : s.node_id ≤ s.total_nodes) :
    (exit_cs w responses s).1.cs_end_time = some w ∧
    (exit_cs w responses s).2.1 = s.lamport_clock + 1 ∧
    (exit_cs w responses s).1.request_queue =
      s.request_queue.filter (fun e => e.2 ≠ s.node_id) ∧
    (exit_cs w responses s).2.2.map Prod.fst = peerIds s ∧
    (exit_cs w responses s).2.2.length = s.total_nodes - 1 ∧
    (∀ m ∈ (exit_cs w responses s).2.2, (exit_cs w responses s).2.1 < m.2) ∧
    ((exit_cs w responses s).2.2.map Prod.snd).Pairwise (· < ·) := by
  have h4 : (exit_cs w responses s).2.2.map Prod.fst = peerIds s :=
    releaseSendLoop_fst responses _ _
  refine ⟨?_, rfl, ?_, h4, ?_, ?_, ?_⟩
  · exact releaseSendLoop_cs_end_time responses _ _
  · exact releaseSendLoop_queue responses _ _
  · calc (exit_cs w responses s).2.2.length
        = ((exit_cs w responses s).2.2.map Prod.fst).length :=
          (List.length_map _ _).symm
      _ = (peerIds s).length := by rw [h4]
      _ = s.total_nodes - 1 := peerIds_length s h1 h2
  · intro m hm
    exact releaseSendLoop_msg_gt responses _ _ m hm
  · exact releaseSendLoop_pairwise responses _ _

/-- Witness for C7 at the freshly initialised node 1 of 3 with all sends
failing: two RELEASE messages are initiated. -/
theorem exit_cs_fresh_release_ts_witness :
    (exit_cs "x" (fun _ => none) (initState 1 3)).2.2.length = 3 - 1 :=
  (exit_cs_fresh_release_ts "x" (fun _ => none) (initState 1 3)
    (by decide) (by decide)).2.2.2.2.1

/-- C10: the critical-section payload is deterministic in the node id:
it performs exactly three operations with values `id*100`, `id*100+10`,
`id*100+20`, its final result is `300*id + 30` whatever the rest of the
state, and it advances the logical clock by exactly five ticks (one
before the operations, one per operation, one after). -/
theorem execute_critical_section_deterministic (s : NodeState) :
    (execute_critical_section s).2.2 = 300 * s.node_id + 30 ∧
    (execute_critical_section s).2.1.length = 3 ∧
    (execute_critical_section s).2.1.map (fun op => op.value) =
      [s.node_id * 100, s.node_id * 100 + 10, s.node_id * 100 + 20] ∧
    (execute_critical_section s).1.lamport_clock = s.lamport_clock + 5 := by
  refine ⟨?_, rfl, rfl, rfl⟩
  have h : (execute_critical_section s).2.2 =
      0 + (s.node_id * 100 + 0 * 10) + (s.node_id * 100 + 1 * 10) +
        (s.node_id * 100 + 2 * 10) := rfl
  rw [h]
  omega

/-- C1: the wait loop of `wait_for_cs_entry` lets `enter_cs` run only
from a polled state in which, simultaneously, the reply tracker holds
`total_nodes - 1` recorded repliers for the current episode (so, when the
repliers are among the other participants, it is exactly the set of all
`total_nodes - 1` of them) and the node's own request is the minimum
entry of its local request queue under (timestamp, node-id) order. -/
theorem cs_entry_only_with_quorum_and_min (obs : Nat → NodeState) (fuel : Nat)
    (w : String) (r : NodeState × List CSOperation × Nat)
    (h : execute_cs_entry obs fuel w = some r) :
    ∃ k, wait_for_cs_entry obs fuel = some k ∧ r = enter_cs w (obs k) ∧
      (obs k).replies_received.card = (obs k).total_nodes - 1 ∧
      (∃ e, queueMin (obs k).request_queue = some e ∧ e.2 = (obs k).node_id ∧
        e ∈ (obs k).request_queue ∧ ∀ x ∈ (obs k).request_queue, reqLe e x) ∧
      ((obs k).node_id ∈ Finset.Icc 1 (obs k).total_nodes →
        (obs k).replies_received ⊆
          (Finset.Icc 1 (obs k).total_nodes).erase (obs k).node_id →
        (obs k).replies_received =
          (Finset.Icc 1 (obs k).total_nodes).erase (obs k).node_id) := by
  unfold execute_cs_entry at h
  rcases Option.map_eq_some'.mp h with ⟨k, hk, hr⟩
  have hk2 := hk
  unfold wait_for_cs_entry at hk2
  have hchk := List.find?_some hk2
  simp only [csEntryCheck, Bool.and_eq_true] at hchk
  obtain ⟨hcard, hmin⟩ := hchk
  have hcard2 : (obs k).replies_received.card = (obs k).total_nodes - 1 := by
    simpa using hcard
  cases hq : queueMin (obs k).request_queue with
  | none => rw [hq] at hmin; cases hmin
  | some e =>
      rw [hq] at hmin
      have he2 : e.2 = (obs k).node_id := by simpa using hmin
      refine ⟨k, hk, hr.symm, hcard2,
        ⟨e, hq, he2, queueMin_mem hq, queueMin_least hq⟩, ?_⟩
      intro hmem hsub
      apply Finset.eq_of_subset_of_card_le hsub
      rw [Finset.card_erase_of_mem hmem, Nat.card_Icc, hcard2]
      omega

/-- Witness for C1: node 1 of 2 holding the reply of node 2 with its own
request at the head of the queue passes the entry check at the first
poll. -/
theorem cs_entry_only_with_quorum_and_min_witness :
    exEntry.replies_received.card = exEntry.total_nodes - 1 := by
  obtain ⟨k, hk, hr, hcard, hrest⟩ :=
    cs_entry_only_with_quorum_and_min (fun _ => exEntry) 1 "t"
      (enter_cs "t" exEntry) (by decide)
  exact hcard

end Lamport
